import Mathlib

/-!
Shallow embedding of the preprocessing normalization pipeline of
`src/regional_downscaling/provider/preprocess.py`.

A gridded dataset is modelled as an association list of named data variables
(each with a dimension list, an optional `units` attribute, and rational
values) together with an association list of named coordinates (dimension
list plus rational values).  Pure xarray operations become Lean functions;
operations that can raise (`rename`, `__getitem__`, attribute access,
table lookups) return `Except`/`Option`; the in-place loop of
`convert_units` is embedded by explicit state passing, returning both the
optional error and the final state of the mutated dataset.  Machine floats
of the source are modelled as exact rationals.  The `reindex` used for
longitude sorting is represented by its effect on the longitude coordinate
(the claims under verification only mention that coordinate).
-/

set_option maxHeartbeats 1000000

/-- Python's `needle in hay` prefix step on character lists. -/
def charsStartWith : List Char → List Char → Bool
  | [], _ => true
  | _ :: _, [] => false
  | a :: as, b :: bs => a == b && charsStartWith as bs

/-- Python's substring containment on character lists. -/
def charsContain (needle : List Char) : List Char → Bool
  | [] => charsStartWith needle []
  | b :: bs => charsStartWith needle (b :: bs) || charsContain needle bs

/-- Python's `needle in hay` for strings (substring test). -/
def occursIn (needle hay : String) : Bool := charsContain needle.data hay.data

/-- A coordinate variable: its dimension names and its values. -/
structure Coord where
  dims : List String
  values : List ℚ
deriving DecidableEq, Repr

/-- A data variable: dimension names, optional `units` attribute, values. -/
structure DataVar where
  dims : List String
  unitsAttr : Option String
  values : List ℚ
deriving DecidableEq, Repr

/-- An xarray `Dataset`: named data variables plus named coordinates. -/
structure Dataset where
  data_vars : List (String × DataVar)
  coords : List (String × Coord)
deriving DecidableEq, Repr

/-- First-match association-list lookup (Python dict access, `None` on miss). -/
def lookupTab {α : Type} (l : List (String × α)) (k : String) : Option α :=
  (l.find? (fun p => p.1 == k)).map (·.2)

def Dataset.dataVarNames (ds : Dataset) : List String := ds.data_vars.map (·.1)

def Dataset.coordNames (ds : Dataset) : List String := ds.coords.map (·.1)

/-- The dimension names of the dataset: dims of all variables and coordinates. -/
def Dataset.dimNames (ds : Dataset) : List String :=
  (ds.data_vars.map (fun p => p.2.dims)).flatten ++ (ds.coords.map (fun p => p.2.dims)).flatten

def Dataset.hasDim (ds : Dataset) (s : String) : Bool := ds.dimNames.contains s

def Dataset.hasCoord (ds : Dataset) (s : String) : Bool := ds.coordNames.contains s

/-- Presence test `s in dataset.dims or s in dataset.coords` used by
the coordinate normalizer. -/
def present (ds : Dataset) (s : String) : Bool := ds.hasDim s || ds.hasCoord s

/-- All names renameable by `xarray.Dataset.rename` (variables, coordinates, dims). -/
def Dataset.allNames (ds : Dataset) : List String :=
  ds.dataVarNames ++ ds.coordNames ++ ds.dimNames

/-- Errors raised by the unit converter (`convert_units`). -/
inductive CErr where
  | unitsAttrMissing
  | noExpectedUnit (var : String)
  | noConversion (u : String)
deriving DecidableEq, Repr

/-- Errors raised by the preprocessing stages. -/
inductive PErr where
  | unrecognizedSchema
  | renameMissingKey
  | missingCoordVar (name : String)
  | missingLat
  | selectMissing (name : String)
  | convert (e : CErr)
deriving DecidableEq, Repr

/-- Apply a rename mapping to one name (names not in the mapping are kept). -/
def applyRen (m : List (String × String)) (s : String) : String :=
  match m.find? (fun p => p.1 == s) with
  | some p => p.2
  | none => s

/-- The renaming a successful `xarray.Dataset.rename` performs: variable names,
coordinate names and dimension names are all relabelled. -/
def Dataset.renameAll (ds : Dataset) (m : List (String × String)) : Dataset :=
  { data_vars := ds.data_vars.map
      (fun p => (applyRen m p.1, { p.2 with dims := p.2.dims.map (applyRen m) })),
    coords := ds.coords.map
      (fun p => (applyRen m p.1, { p.2 with dims := p.2.dims.map (applyRen m) })) }

/-- Embeds `xarray.Dataset.rename`: every key must name a variable, coordinate or
dimension of the dataset, otherwise a `ValueError` is raised. -/
def renameDs (m : List (String × String)) (ds : Dataset) : Except PErr Dataset :=
  if m.all (fun p => ds.allNames.contains p.1) then .ok (ds.renameAll m)
  else .error .renameMissingKey

/-- Embeds `fix_spatial_coord_names` (preprocess.py lines 85-121): cascade of
presence checks, first match wins; `NotImplementedError` when nothing matches. -/
def fix_spatial_coord_names (ds : Dataset) : Except PErr Dataset :=
  if present ds "rlon" && present ds "longitude" then
    renameDs [("rlon", "x"), ("rlat", "y"), ("longitude", "lon"), ("latitude", "lat")] ds
  else if present ds "i" && present ds "longitude" then
    renameDs [("i", "x"), ("j", "y"), ("longitude", "lon"), ("latitude", "lat")] ds
  else if present ds "rlon" then
    renameDs [("rlon", "x"), ("rlat", "y")] ds
  else if present ds "lon" then
    .ok ds
  else if ds.hasDim "x" || ds.hasCoord "y" then
    renameDs [("x", "lon"), ("y", "lat")] ds
  else if present ds "longitude" then
    renameDs [("longitude", "lon"), ("latitude", "lat")] ds
  else
    .error .unrecognizedSchema

/-- Computes `lonname = lonname if "CERRA" not in project else "longitude"` with the
default argument `lonname="lon"`. -/
def lonNameFor (project : String) : String :=
  if occursIn "CERRA" project then "longitude" else "lon"

/-- One longitude value through `where(lon <= 180, other=lon - 360)`. -/
def rewrapOne (v : ℚ) : ℚ := if v ≤ 180 then v else v - 360

def listMax : List ℚ → ℚ
  | [] => 0
  | x :: xs => xs.foldl max x

def listMin : List ℚ → ℚ
  | [] => 0
  | x :: xs => xs.foldl min x

/-- The conditional rewrap of `fix_360_longitudes`: only when
`lon.max() > 180 and lon.min() >= 0`. -/
def rewrapLonValues (vs : List ℚ) : List ℚ :=
  if 180 < listMax vs ∧ 0 ≤ listMin vs then vs.map rewrapOne else vs

def coordLookup (ds : Dataset) (name : String) : Option Coord := lookupTab ds.coords name

def coordVals (ds : Dataset) (name : String) : Option (List ℚ) :=
  (coordLookup ds name).map (·.values)

/-- Overwrite the values of the named coordinate (`dataset[lonname] = ...`). -/
def setCoordVals (ds : Dataset) (name : String) (vs : List ℚ) : Dataset :=
  { ds with coords :=
      ds.coords.map (fun p => if p.1 == name then (p.1, { p.2 with values := vs }) else p) }

/-- Python's `sorted` on rational values. -/
def sortAsc (l : List ℚ) : List ℚ := List.insertionSort (fun a b => a ≤ b) l

/-- Embeds `fix_360_longitudes` (preprocess.py lines 124-148).  Looking up a missing
coordinate raises (`KeyError` for `dataset[lonname]`, `AttributeError` for
`dataset.lat`).  The `reindex` on a sorted longitude is represented by its
effect on the longitude coordinate.  Note the 1-D test of the source is on
`dataset.lat`, not on the longitude coordinate. -/
def fix_360_longitudes (ds : Dataset) (project : String) : Except PErr Dataset :=
  match coordLookup ds (lonNameFor project) with
  | none => .error (.missingCoordVar (lonNameFor project))
  | some lonc =>
    if occursIn "CERRA" project then
      .ok (setCoordVals ds (lonNameFor project) (rewrapLonValues lonc.values))
    else
      match coordLookup (setCoordVals ds (lonNameFor project) (rewrapLonValues lonc.values))
          "lat" with
      | none => .error .missingLat
      | some latc =>
        if latc.dims.length ≠ 2 then
          .ok (setCoordVals
                (setCoordVals ds (lonNameFor project) (rewrapLonValues lonc.values))
                (lonNameFor project) (sortAsc (rewrapLonValues lonc.values)))
        else .ok (setCoordVals ds (lonNameFor project) (rewrapLonValues lonc.values))

/-- Embeds `try: var_mapping[variable] except KeyError: var_name = variable`. -/
def resolveVarName (var_mapping : List (String × String)) (varName : String) : String :=
  match lookupTab var_mapping varName with
  | some v => v
  | none => varName

/-- Embeds `xarray.Dataset.rename_vars`: renames variables and coordinates (not
dimensions); every key must name a variable or coordinate. -/
def renameVarsDs (m : List (String × String)) (ds : Dataset) : Except PErr Dataset :=
  if m.all (fun p => ds.dataVarNames.contains p.1 || ds.coordNames.contains p.1) then
    .ok { data_vars := ds.data_vars.map (fun p => (applyRen m p.1, p.2)),
          coords := ds.coords.map (fun p => (applyRen m p.1, p.2)) }
  else .error .renameMissingKey

/-- Embeds `ds.assign_coords` of a scalar `height = 2.0`, replacing any
previous `height`. -/
def assignHeightCoord (ds : Dataset) : Dataset :=
  { ds with coords := ds.coords.filter (fun p => !(p.1 == "height")) ++ [("height", ⟨[], [2]⟩)] }

/-- Embeds `ds[[name]]`: restrict to the one listed data variable, keeping the
coordinates whose dims are among the needed dims of that variable. -/
def selectVar (ds : Dataset) (name : String) : Except PErr Dataset :=
  match ds.data_vars.find? (fun p => p.1 == name) with
  | none => .error (.selectMissing name)
  | some p =>
    .ok { data_vars := [p],
          coords := ds.coords.filter (fun c => c.2.dims.all (fun d => p.2.dims.contains d)) }

/-- The canonical coordinate list `main_coords` of preprocess.py line 180. -/
def mainCoords : List String :=
  ["time", "lon", "lat", "height", "x", "y", "latitude", "longitude"]

/-- Lines 181-183: `if sorted(list(ds.coords)) != sorted(main_coords)` drop the
coordinates outside `main_coords` (sorted-list equality is multiset equality,
i.e. a permutation). -/
def dropExtraCoords (ds : Dataset) : Dataset :=
  if ds.coordNames.Perm mainCoords then ds
  else { ds with coords := ds.coords.filter (fun p => mainCoords.contains p.1) }

/-- Lines 184-185: `if "time" not in list(ds.dims): ds = ds.expand_dims("time")`
inserts a size-1 `time` dimension in front of every data variable. -/
def expandTimeDim (ds : Dataset) : Dataset :=
  if ds.dimNames.contains "time" then ds
  else { ds with data_vars :=
          ds.data_vars.map (fun p => (p.1, { p.2 with dims := "time" :: p.2.dims })) }

/-- Embeds `rename_and_delete_variables` (preprocess.py lines 151-186): resolve the
source name through the map (non-fatal fallback), rename it to the canonical
name, attach the scalar `height = 2.0`, select the single variable, drop the
non-canonical coordinates, and ensure a `time` dimension. -/
def rename_and_delete_variables (ds : Dataset) (varName : String)
    (var_mapping : List (String × String)) : Except PErr Dataset :=
  match renameVarsDs [(resolveVarName var_mapping varName, varName)] ds with
  | .error e => .error e
  | .ok ds1 =>
    match selectVar (assignHeightCoord ds1) varName with
    | .error e => .error e
    | .ok ds2 => .ok (expandTimeDim (dropExtraCoords ds2))

/-- The `UNIT_CONVERTER` table (preprocess.py lines 204-228):
source unit ↦ (scale, offset, target unit), floats as exact rationals. -/
def UNIT_CONVERTER : List (String × (ℚ × ℚ × String)) :=
  [("Kelvin", (1, -27315/100, "Celsius")),
   ("K", (1, -27315/100, "Celsius")),
   ("Fahrenheit", (5/9, -32*5/9, "Celsius")),
   ("Celsius", (1, 0, "Celsius")),
   ("degC", (1, 0, "Celsius")),
   ("m hour**-1", (1000*24, 0, "mm")),
   ("mm day**-1", (1, 0, "mm")),
   ("mm", (1, 0, "mm")),
   ("m", (1000, 0, "mm")),
   ("mm s**-1", (3600*24, 0, "mm")),
   ("kg m**-2 day**-1", (1, 0, "mm")),
   ("kg m-2 s-1", (3600*24, 0, "mm")),
   ("kg m**-2", (1, 0, "mm")),
   ("kg m-2", (1, 0, "mm")),
   ("m of water equivalent", (1000, 0, "mm")),
   ("m s**-1", (1, 0, "m s-1")),
   ("m s-1", (1, 0, "m s-1")),
   ("km h**-1", (10/36, 0, "m s-1")),
   ("knots", (51/100, 0, "m s-1")),
   ("kts", (51/100, 0, "m s-1")),
   ("mph (nautical miles per hour)", (51/100, 0, "m s-1")),
   ("%", (1, 0, "%")),
   ("W m**-2", (1, 0, "W m-2"))]

/-- The `VALID_UNITS` table (preprocess.py lines 230-252):
variable name ↦ expected canonical unit. -/
def VALID_UNITS : List (String × String) :=
  [("tas", "Celsius"), ("mx2t", "Celsius"), ("tasmax", "Celsius"),
   ("tasmin", "Celsius"), ("hurs", "%"), ("clt", "%"),
   ("evspsbl", "kg m-2 s-1"), ("pr", "mm"), ("psl", "Pa"), ("prsn", "mm"),
   ("sisonc", "%"), ("sfcwind", "m s-1"), ("uwind", "m s**-1"),
   ("vwind", "m s**-1"), ("mrso", "kg m-2"), ("huss", "1"),
   ("sst", "Celsius"), ("rlds", "W m-2"), ("rsds", "W m-2"),
   ("mslp", "Pa"), ("z", "m**2 s**-2")]

/-- The body of the `convert_units` loop for one variable, in Python's
evaluation order: `ds[ds_var].attrs["units"]` first (KeyError when the
attribute is absent), then `VALID_UNITS[ds_var]`, then on mismatch
`UNIT_CONVERTER[units]`; conversion is `value * scale + offset` and the
`units` attribute is overwritten with the target unit. -/
def convertStep (name : String) (v : DataVar) : Except CErr DataVar :=
  match v.unitsAttr with
  | none => .error .unitsAttrMissing
  | some u =>
    match lookupTab VALID_UNITS name with
    | none => .error (.noExpectedUnit name)
    | some expected =>
      if u = expected then .ok v
      else
        match lookupTab UNIT_CONVERTER u with
        | none => .error (.noConversion u)
        | some c =>
          .ok { dims := v.dims, unitsAttr := some c.2.2,
                values := v.values.map (fun x => x * c.1 + c.2.1) }

/-- Explicit state passing for the in-place loop of `convert_units`: variables
are processed in order; the first raised error stops the loop, leaving the
already-processed prefix converted and the rest (failing variable included)
unchanged. -/
def convertVarsGo : List (String × DataVar) → Option CErr × List (String × DataVar)
  | [] => (none, [])
  | (n, v) :: rest =>
    match convertStep n v with
    | .error e => (some e, (n, v) :: rest)
    | .ok v' => ((convertVarsGo rest).1, (n, v') :: (convertVarsGo rest).2)

/-- Runs `convert_units` as a state-passing function: the optional raised error and
the final state of the (mutated) dataset. -/
def convertUnitsRun (ds : Dataset) : Option CErr × Dataset :=
  let r := convertVarsGo ds.data_vars
  (r.1, { ds with data_vars := r.2 })

/-- Wraps `convert_units` as the caller sees it: the normal return value, or the
propagated exception. -/
def convert_units (ds : Dataset) : Except CErr Dataset :=
  match convertUnitsRun ds with
  | (none, ds') => .ok ds'
  | (some e, _) => .error e

/-- Embeds `preprocess` (preprocess.py lines 6-12): the fixed stage composition. -/
def preprocess (ds : Dataset) (project varName : String)
    (variable_map : List (String × String)) : Except PErr Dataset := do
  let ds ← fix_spatial_coord_names ds
  let ds ← rename_and_delete_variables ds varName variable_map
  let ds ← fix_360_longitudes ds project
  match convert_units ds with
  | .ok d => pure d
  | .error e => .error (.convert e)

/-- Whether an error of the unit converter is a missing-mapping error (a miss
in `VALID_UNITS` or `UNIT_CONVERTER`), as opposed to a missing-attribute one. -/
def CErr.isMappingErr : CErr → Bool
  | .unitsAttrMissing => false
  | .noExpectedUnit _ => true
  | .noConversion _ => true

/-- A data variable on which `convert_units` must raise a missing-mapping
error: no expected unit for its name, or recorded units differing from the
expected unit with no conversion-table entry. -/
def badVar (name : String) (v : DataVar) : Bool :=
  match lookupTab VALID_UNITS name with
  | none => true
  | some expected =>
    match v.unitsAttr with
    | none => false
    | some u => u != expected && (lookupTab UNIT_CONVERTER u).isNone

/-- Data-model invariant (spec section 3): every data variable carries a
`units` string in its attribute mapping. -/
def unitsWellFormed (ds : Dataset) : Prop :=
  ∀ p ∈ ds.data_vars, p.2.unitsAttr.isSome = true

/-- Whether `convert_units` raised a missing-mapping error. -/
def isMappingFail : Option CErr → Bool
  | none => false
  | some e => e.isMappingErr

/-- A CORDEX-style dataset carrying rotated axes and geographic coordinates. -/
def c1ds : Dataset :=
  ⟨[("t2m", ⟨["rlat", "rlon"], some "K", [300]⟩)],
   [("rlon", ⟨["rlon"], [0]⟩), ("rlat", ⟨["rlat"], [0]⟩),
    ("longitude", ⟨["rlat", "rlon"], [10]⟩), ("latitude", ⟨["rlat", "rlon"], [50]⟩)]⟩

/-- A dataset whose longitude values satisfy max > 180 and min ≥ 0 while one
value exceeds 540, so the rewrap leaves a value above 180. -/
def c2ds : Dataset := ⟨[], [("lon", ⟨["lon"], [0, 541]⟩), ("lat", ⟨["lat"], [10]⟩)]⟩

/-- The dataset state `fix_360_longitudes` produces from `c2ds`. -/
def c2res : Dataset := ⟨[], [("lon", ⟨["lon"], [0, 181]⟩), ("lat", ⟨["lat"], [10]⟩)]⟩

/-- A [0,360)-convention dataset with a one-dimensional latitude. -/
def c2wds : Dataset :=
  ⟨[], [("lon", ⟨["lon"], [0, 90, 180, 270, 350]⟩), ("lat", ⟨["lat"], [10]⟩)]⟩

/-- The dataset state `fix_360_longitudes` produces from `c2wds`. -/
def c2wres : Dataset :=
  ⟨[], [("lon", ⟨["lon"], [-90, -10, 0, 90, 180]⟩), ("lat", ⟨["lat"], [10]⟩)]⟩

/-- Two variables: the first converts (K → Celsius), the second has a name
outside `VALID_UNITS`, so the loop raises after mutating the first. -/
def c3ds : Dataset :=
  ⟨[("tas", ⟨["time"], some "K", [300]⟩), ("bogus", ⟨["time"], some "K", [1]⟩)], []⟩

/-- A single variable with an unknown recorded unit. -/
def c3wds : Dataset := ⟨[("tas", ⟨["time"], some "furlongs-per-fortnight", [1]⟩)], []⟩

/-- Concrete scenario 4 of the spec: data variable `t2m`, canonical name
`tas`, plus a non-canonical scalar coordinate to be dropped. -/
def c4ds : Dataset :=
  ⟨[("t2m", ⟨["time", "lat", "lon"], some "K", [300]⟩),
    ("junkvar", ⟨["lat", "lon"], some "K", [1]⟩)],
   [("lon", ⟨["lon"], [0]⟩), ("lat", ⟨["lat"], [10]⟩), ("time", ⟨["time"], [0]⟩),
    ("number", ⟨[], [7]⟩)]⟩

/-- The output of the variable selector on `c4ds`. -/
def c4res : Dataset :=
  ⟨[("tas", ⟨["time", "lat", "lon"], some "K", [300]⟩)],
   [("lon", ⟨["lon"], [0]⟩), ("lat", ⟨["lat"], [10]⟩), ("time", ⟨["time"], [0]⟩),
    ("height", ⟨[], [2]⟩)]⟩

/-- A dataset with a one-dimensional longitude but a two-dimensional
(curvilinear) latitude, and rewrap leaving the axis unsorted. -/
def c5ds : Dataset :=
  ⟨[], [("lon", ⟨["lon"], [0, 350]⟩), ("lat", ⟨["y", "x"], [10, 11, 12, 13]⟩)]⟩

/-- The dataset state `fix_360_longitudes` produces from `c5ds`: rewrapped but
not re-sorted, because the latitude is two-dimensional. -/
def c5res : Dataset :=
  ⟨[], [("lon", ⟨["lon"], [0, -10]⟩), ("lat", ⟨["y", "x"], [10, 11, 12, 13]⟩)]⟩

/-- Concrete scenario 3 of the spec: longitudes [0, 90, 180, 270, 350]. -/
def c5wds : Dataset :=
  ⟨[("tas", ⟨["lat", "lon"], some "Celsius", [1, 2, 3, 4, 5]⟩)],
   [("lon", ⟨["lon"], [0, 90, 180, 270, 350]⟩), ("lat", ⟨["lat"], [10]⟩)]⟩

/-- The dataset state `fix_360_longitudes` produces from `c5wds`. -/
def c5wres : Dataset :=
  ⟨[("tas", ⟨["lat", "lon"], some "Celsius", [1, 2, 3, 4, 5]⟩)],
   [("lon", ⟨["lon"], [-90, -10, 0, 90, 180]⟩), ("lat", ⟨["lat"], [10]⟩)]⟩

/-- A variable whose recorded unit `W m**-2` converts to the target `W m-2`,
which is itself absent from `UNIT_CONVERTER`. -/
def c6cexds : Dataset := ⟨[("tas", ⟨["time"], some "W m**-2", [1]⟩)], []⟩

/-- The result of the first conversion pass on `c6cexds`. -/
def c6cexds1 : Dataset := ⟨[("tas", ⟨["time"], some "W m-2", [1]⟩)], []⟩

/-- A variable converting K → Celsius, on which two passes agree. -/
def c6wds : Dataset := ⟨[("tas", ⟨["time"], some "K", [300]⟩)], []⟩

/-- The result of converting `c6wds` (300 K = 537/20 °C). -/
def c6wds1 : Dataset := ⟨[("tas", ⟨["time"], some "Celsius", [537/20]⟩)], []⟩

/-- A rotated-pole dataset with no geographic coordinates (case 3 input). -/
def c7ds : Dataset :=
  ⟨[("t", ⟨["rlat", "rlon"], some "K", [1]⟩)],
   [("rlon", ⟨["rlon"], [0]⟩), ("rlat", ⟨["rlat"], [0]⟩)]⟩

/-- First application of the coordinate normalizer to `c7ds` (case 3). -/
def c7ds1 : Dataset :=
  ⟨[("t", ⟨["y", "x"], some "K", [1]⟩)],
   [("x", ⟨["x"], [0]⟩), ("y", ⟨["y"], [0]⟩)]⟩

/-- Second application: case 5 fires again and renames (x, y) to (lon, lat). -/
def c7ds2 : Dataset :=
  ⟨[("t", ⟨["lat", "lon"], some "K", [1]⟩)],
   [("lon", ⟨["lon"], [0]⟩), ("lat", ⟨["lat"], [0]⟩)]⟩

/-- A dataset already carrying the canonical `lon` coordinate. -/
def c7wds : Dataset :=
  ⟨[("tas", ⟨["lat", "lon"], some "Celsius", [1]⟩)],
   [("lon", ⟨["lon"], [0]⟩), ("lat", ⟨["lat"], [10]⟩)]⟩

/-- A dataset used to exercise the variable-map fallback. -/
def c8ds : Dataset :=
  ⟨[("tas", ⟨["lat", "lon"], some "Celsius", [1]⟩)],
   [("lon", ⟨["lon"], [0]⟩), ("lat", ⟨["lat"], [10]⟩)]⟩

/-- A variable with no `units` attribute whose values would need no
conversion had the unit been recorded as Celsius. -/
def c10ds : Dataset := ⟨[("tas", ⟨["time"], none, [20]⟩)], []⟩

theorem contains_iff_mem {l : List String} {s : String} : l.contains s = true ↔ s ∈ l :=
  List.elem_iff

theorem dataVarNames_renameAll (ds : Dataset) (m : List (String × String)) :
    (ds.renameAll m).dataVarNames = ds.dataVarNames.map (applyRen m) := by
  simp [Dataset.renameAll, Dataset.dataVarNames, List.map_map]

theorem coordNames_renameAll (ds : Dataset) (m : List (String × String)) :
    (ds.renameAll m).coordNames = ds.coordNames.map (applyRen m) := by
  simp [Dataset.renameAll, Dataset.coordNames, List.map_map]

theorem dimNames_renameAll (ds : Dataset) (m : List (String × String)) :
    (ds.renameAll m).dimNames = ds.dimNames.map (applyRen m) := by
  simp only [Dataset.renameAll, Dataset.dimNames, List.map_append, List.map_flatten,
    List.map_map]
  rfl

theorem mem_iff_present {ds : Dataset} {s : String} :
    present ds s = true ↔ s ∈ ds.dimNames ∨ s ∈ ds.coordNames := by
  simp [present, Dataset.hasDim, Dataset.hasCoord, Bool.or_eq_true, contains_iff_mem]

theorem present_renameAll {ds : Dataset} {m : List (String × String)} {s : String} :
    present (ds.renameAll m) s = true ↔ ∃ n, present ds n = true ∧ applyRen m n = s := by
  rw [mem_iff_present, dimNames_renameAll, coordNames_renameAll]
  constructor
  · rintro (h | h)
    · obtain ⟨n, hn, rfl⟩ := List.mem_map.mp h
      exact ⟨n, mem_iff_present.mpr (Or.inl hn), rfl⟩
    · obtain ⟨n, hn, rfl⟩ := List.mem_map.mp h
      exact ⟨n, mem_iff_present.mpr (Or.inr hn), rfl⟩
  · rintro ⟨n, hn, rfl⟩
    rcases mem_iff_present.mp hn with h | h
    · exact Or.inl (List.mem_map.mpr ⟨n, h, rfl⟩)
    · exact Or.inr (List.mem_map.mpr ⟨n, h, rfl⟩)

theorem applyRen_eq_split {m : List (String × String)} {n s : String}
    (h : applyRen m n = s) :
    (∃ p ∈ m, p.2 = s) ∨ (n = s ∧ m.find? (fun p => p.1 == n) = none) := by
  cases hf : m.find? (fun p => p.1 == n) with
  | none =>
    simp only [applyRen, hf] at h
    exact Or.inr ⟨h, rfl⟩
  | some p =>
    simp only [applyRen, hf] at h
    exact Or.inl ⟨p, List.mem_of_find?_eq_some hf, h⟩

theorem present_renameAll_absent {ds : Dataset} {m : List (String × String)} {s : String}
    (hval : ∀ p ∈ m, p.2 ≠ s)
    (hkey : present ds s = false ∨ (m.find? (fun p => p.1 == s)).isSome = true) :
    present (ds.renameAll m) s = false := by
  cases hp : present (ds.renameAll m) s with
  | false => rfl
  | true =>
    exfalso
    obtain ⟨n, hn, he⟩ := present_renameAll.mp hp
    rcases applyRen_eq_split he with ⟨p, hpm, hps⟩ | ⟨rfl, hf⟩
    · exact hval p hpm hps
    · rcases hkey with hk | hk
      · rw [hn] at hk; cases hk
      · rw [hf] at hk; cases hk

theorem renameDs_ok {m : List (String × String)} {ds ds' : Dataset}
    (h : renameDs m ds = .ok ds') : ds' = ds.renameAll m := by
  unfold renameDs at h
  split at h
  · injection h with h; exact h.symm
  · cases h

/-- C1: the Coordinate Normalizer checks its cases in first-match-wins order:
whenever both `rlon` and `longitude` are present it takes case 1 (rename
rlon/rlat to x/y and longitude/latitude to lon/lat) regardless of any other
coordinates; whenever `i` and `longitude` are present without `rlon` it takes
case 2; and a dataset whose coordinates are exactly
{rlon, rlat, longitude, latitude} ends with coordinates exactly
{x, y, lon, lat}. -/
theorem c1_normalizer_first_match_precedence :
    (∀ ds : Dataset, present ds "rlon" = true → present ds "longitude" = true →
       fix_spatial_coord_names ds =
         renameDs [("rlon", "x"), ("rlat", "y"), ("longitude", "lon"), ("latitude", "lat")] ds) ∧
    (∀ ds : Dataset, present ds "rlon" = false → present ds "i" = true →
       present ds "longitude" = true →
       fix_spatial_coord_names ds =
         renameDs [("i", "x"), ("j", "y"), ("longitude", "lon"), ("latitude", "lat")] ds) ∧
    (∀ ds : Dataset, ds.coordNames = ["rlon", "rlat", "longitude", "latitude"] →
       fix_spatial_coord_names ds =
         .ok (ds.renameAll [("rlon", "x"), ("rlat", "y"), ("longitude", "lon"), ("latitude", "lat")]) ∧
       (ds.renameAll
         [("rlon", "x"), ("rlat", "y"), ("longitude", "lon"), ("latitude", "lat")]).coordNames
         = ["x", "y", "lon", "lat"]) := by
  refine ⟨?_, ?_, ?_⟩
  · intro ds h1 h2
    simp [fix_spatial_coord_names, h1, h2]
  · intro ds h1 h2 h3
    simp [fix_spatial_coord_names, h1, h2, h3]
  · intro ds hc
    have hrlon : present ds "rlon" = true := by
      apply mem_iff_present.mpr; right; rw [hc]; decide
    have hlongitude : present ds "longitude" = true := by
      apply mem_iff_present.mpr; right; rw [hc]; decide
    have hall : ([("rlon", "x"), ("rlat", "y"), ("longitude", "lon"),
        ("latitude", "lat")]).all (fun p => ds.allNames.contains p.1) = true := by
      rw [List.all_eq_true]
      intro p hp
      apply contains_iff_mem.mpr
      have hpc : p.1 ∈ ds.coordNames := by
        rw [hc]
        simp only [List.mem_cons, List.not_mem_nil, or_false] at hp
        rcases hp with rfl | rfl | rfl | rfl <;> decide
      unfold Dataset.allNames
      exact List.mem_append_left _ (List.mem_append_right _ hpc)
    constructor
    · have hb : fix_spatial_coord_names ds =
          renameDs [("rlon", "x"), ("rlat", "y"), ("longitude", "lon"), ("latitude", "lat")] ds := by
        simp [fix_spatial_coord_names, hrlon, hlongitude]
      rw [hb]
      unfold renameDs
      rw [if_pos hall]
    · rw [coordNames_renameAll, hc]
      rfl

/-- Witness for C1 at a concrete CORDEX-style dataset. -/
theorem c1_normalizer_first_match_precedence_witness :
    present c1ds "rlon" = true ∧ present c1ds "longitude" = true ∧
    fix_spatial_coord_names c1ds =
      renameDs [("rlon", "x"), ("rlat", "y"), ("longitude", "lon"), ("latitude", "lat")] c1ds ∧
    (c1ds.renameAll
      [("rlon", "x"), ("rlat", "y"), ("longitude", "lon"), ("latitude", "lat")]).coordNames
      = ["x", "y", "lon", "lat"] :=
  ⟨by decide, by decide,
   c1_normalizer_first_match_precedence.1 c1ds (by decide) (by decide),
   (c1_normalizer_first_match_precedence.2.2 c1ds (by decide)).2⟩

/-- C7 counterexample: `c7ds1` is an output of `fix_spatial_coord_names`
(case 3 applied to the rotated-axes-only dataset `c7ds`), yet a second
application is not a no-op: case 5 renames (x, y) to (lon, lat). -/
theorem c7_counterexample :
    fix_spatial_coord_names c7ds = .ok c7ds1 ∧
    fix_spatial_coord_names c7ds1 = .ok c7ds2 ∧ c7ds2 ≠ c7ds1 :=
  ⟨by rfl, by rfl, by decide⟩

/-- C7 (amended): the Coordinate Normalizer is a no-op on every output that
carries the canonical `lon` coordinate — every output except those of the
rotated-axes-only case 3 (which lack lon/lat and are renamed again on a
second pass). -/
theorem c7_amended : ∀ ds ds' : Dataset, fix_spatial_coord_names ds = .ok ds' →
    present ds' "lon" = true → fix_spatial_coord_names ds' = .ok ds' := by
  intro ds ds' h hlon
  unfold fix_spatial_coord_names at h
  cases hc1 : (present ds "rlon" && present ds "longitude") with
  | true =>
    rw [if_pos hc1] at h
    have hd := renameDs_ok h
    subst hd
    have ha : present
        (ds.renameAll [("rlon", "x"), ("rlat", "y"), ("longitude", "lon"), ("latitude", "lat")])
        "rlon" = false :=
      present_renameAll_absent (by decide) (Or.inr (by decide))
    have hb : present
        (ds.renameAll [("rlon", "x"), ("rlat", "y"), ("longitude", "lon"), ("latitude", "lat")])
        "longitude" = false :=
      present_renameAll_absent (by decide) (Or.inr (by decide))
    simp [fix_spatial_coord_names, ha, hb, hlon]
  | false =>
    rw [if_neg (by simp [hc1])] at h
    cases hc2 : (present ds "i" && present ds "longitude") with
    | true =>
      rw [if_pos hc2] at h
      have hd := renameDs_ok h
      subst hd
      have hlongit : present ds "longitude" = true := by
        cases hx : present ds "longitude" with
        | true => rfl
        | false => rw [hx, Bool.and_false] at hc2; cases hc2
      have hrlon0 : present ds "rlon" = false := by
        cases hx : present ds "rlon" with
        | false => rfl
        | true => rw [hx, hlongit] at hc1; cases hc1
      have ha : present
          (ds.renameAll [("i", "x"), ("j", "y"), ("longitude", "lon"), ("latitude", "lat")])
          "longitude" = false :=
        present_renameAll_absent (by decide) (Or.inr (by decide))
      have hb : present
          (ds.renameAll [("i", "x"), ("j", "y"), ("longitude", "lon"), ("latitude", "lat")])
          "rlon" = false :=
        present_renameAll_absent (by decide) (Or.inl hrlon0)
      simp [fix_spatial_coord_names, ha, hb, hlon]
    | false =>
      rw [if_neg (by simp [hc2])] at h
      cases hc3 : present ds "rlon" with
      | true =>
        rw [if_pos hc3] at h
        have hd := renameDs_ok h
        subst hd
        have hlongit0 : present ds "longitude" = false := by
          cases hx : present ds "longitude" with
          | false => rfl
          | true => rw [hc3, hx] at hc1; cases hc1
        have ha : present (ds.renameAll [("rlon", "x"), ("rlat", "y")]) "rlon" = false :=
          present_renameAll_absent (by decide) (Or.inr (by decide))
        have hb : present (ds.renameAll [("rlon", "x"), ("rlat", "y")]) "longitude" = false :=
          present_renameAll_absent (by decide) (Or.inl hlongit0)
        simp [fix_spatial_coord_names, ha, hb, hlon]
      | false =>
        rw [if_neg (by simp [hc3])] at h
        cases hc4 : present ds "lon" with
        | true =>
          rw [if_pos hc4] at h
          injection h with h
          subst h
          simp [fix_spatial_coord_names, hc1, hc2, hc3, hc4]
        | false =>
          rw [if_neg (by simp [hc4])] at h
          cases hc5 : (ds.hasDim "x" || ds.hasCoord "y") with
          | true =>
            rw [if_pos hc5] at h
            have hd := renameDs_ok h
            subst hd
            have ha : present (ds.renameAll [("x", "lon"), ("y", "lat")]) "rlon" = false :=
              present_renameAll_absent (by decide) (Or.inl hc3)
            cases hgl : present ds "longitude" with
            | true =>
              have hi0 : present ds "i" = false := by
                cases hx : present ds "i" with
                | false => rfl
                | true => rw [hx, hgl] at hc2; cases hc2
              have hb : present (ds.renameAll [("x", "lon"), ("y", "lat")]) "i" = false :=
                present_renameAll_absent (by decide) (Or.inl hi0)
              simp [fix_spatial_coord_names, ha, hb, hlon]
            | false =>
              have hb : present (ds.renameAll [("x", "lon"), ("y", "lat")]) "longitude" = false :=
                present_renameAll_absent (by decide) (Or.inl hgl)
              simp [fix_spatial_coord_names, ha, hb, hlon]
          | false =>
            rw [if_neg (by simp [hc5])] at h
            cases hc6 : present ds "longitude" with
            | true =>
              rw [if_pos hc6] at h
              have hd := renameDs_ok h
              subst hd
              have ha : present (ds.renameAll [("longitude", "lon"), ("latitude", "lat")])
                  "longitude" = false :=
                present_renameAll_absent (by decide) (Or.inr (by decide))
              have hb : present (ds.renameAll [("longitude", "lon"), ("latitude", "lat")])
                  "rlon" = false :=
                present_renameAll_absent (by decide) (Or.inl hc3)
              simp [fix_spatial_coord_names, ha, hb, hlon]
            | false =>
              rw [if_neg (by simp [hc6])] at h
              cases h

/-- Witness for the amended C7: a dataset already carrying `lon` is a fixed
point of the Coordinate Normalizer. -/
theorem c7_amended_witness :
    fix_spatial_coord_names c7wds = .ok c7wds ∧ present c7wds "lon" = true :=
  ⟨c7_amended c7wds c7wds (by rfl) (by decide), by decide⟩

theorem foldl_max_init_le (xs : List ℚ) (a : ℚ) : a ≤ xs.foldl max a := by
  induction xs generalizing a with
  | nil => exact le_refl a
  | cons x xs ih => exact le_trans (le_max_left a x) (ih (max a x))

theorem mem_le_foldl_max (xs : List ℚ) : ∀ a v : ℚ, v ∈ xs → v ≤ xs.foldl max a := by
  induction xs with
  | nil => intro a v h; cases h
  | cons y ys ih =>
    intro a v h
    rcases List.mem_cons.mp h with rfl | hm
    · exact le_trans (le_max_right a v) (foldl_max_init_le ys (max a v))
    · exact ih (max a y) v hm

theorem le_listMax {vs : List ℚ} {v : ℚ} (h : v ∈ vs) : v ≤ listMax vs := by
  cases vs with
  | nil => cases h
  | cons x xs =>
    unfold listMax
    rcases List.mem_cons.mp h with rfl | hm
    · exact foldl_max_init_le xs v
    · exact mem_le_foldl_max xs x v hm

theorem foldl_min_le_init (xs : List ℚ) (a : ℚ) : xs.foldl min a ≤ a := by
  induction xs generalizing a with
  | nil => exact le_refl a
  | cons x xs ih => exact le_trans (ih (min a x)) (min_le_left a x)

theorem foldl_min_le_mem (xs : List ℚ) : ∀ a v : ℚ, v ∈ xs → xs.foldl min a ≤ v := by
  induction xs with
  | nil => intro a v h; cases h
  | cons y ys ih =>
    intro a v h
    rcases List.mem_cons.mp h with rfl | hm
    · exact le_trans (foldl_min_le_init ys (min a v)) (min_le_right a v)
    · exact ih (min a y) v hm

theorem listMin_le {vs : List ℚ} {v : ℚ} (h : v ∈ vs) : listMin vs ≤ v := by
  cases vs with
  | nil => cases h
  | cons x xs =>
    unfold listMin
    rcases List.mem_cons.mp h with rfl | hm
    · exact foldl_min_le_init xs v
    · exact foldl_min_le_mem xs x v hm

theorem fst_setFun (n : String) (vs : List ℚ) (q : String × Coord) :
    (if q.1 == n then (q.1, { q.2 with values := vs }) else q).1 = q.1 := by
  cases hq : (q.1 == n) with
  | true => rfl
  | false => rfl

theorem lookupTab_set_self (l : List (String × Coord)) (n : String) (vs : List ℚ) :
    lookupTab (l.map (fun p => if p.1 == n then (p.1, { p.2 with values := vs }) else p)) n
      = (lookupTab l n).map (fun c => { c with values := vs }) := by
  unfold lookupTab
  rw [List.find?_map]
  have hpred : ((fun q : String × Coord => q.1 == n) ∘
      (fun p => if p.1 == n then (p.1, { p.2 with values := vs }) else p)) =
      (fun q : String × Coord => q.1 == n) := by
    funext q
    simp only [Function.comp]
    rw [fst_setFun]
  rw [hpred]
  cases hf : l.find? (fun p => p.1 == n) with
  | none => rfl
  | some q =>
    have hq' : (q.1 == n) = true :=
      @List.find?_some _ (fun p : String × Coord => p.1 == n) q l hf
    simp [if_pos hq']
    rw [if_pos (beq_iff_eq.mp hq')]

theorem lookupTab_set_ne (l : List (String × Coord)) (n m : String) (vs : List ℚ)
    (h : m ≠ n) :
    lookupTab (l.map (fun p => if p.1 == n then (p.1, { p.2 with values := vs }) else p)) m
      = lookupTab l m := by
  unfold lookupTab
  rw [List.find?_map]
  have hpred : ((fun q : String × Coord => q.1 == m) ∘
      (fun p => if p.1 == n then (p.1, { p.2 with values := vs }) else p)) =
      (fun q : String × Coord => q.1 == m) := by
    funext q
    simp only [Function.comp]
    rw [fst_setFun]
  rw [hpred]
  cases hf : l.find? (fun p => p.1 == m) with
  | none => rfl
  | some q =>
    have hq' : (q.1 == m) = true :=
      @List.find?_some _ (fun p : String × Coord => p.1 == m) q l hf
    have hqn : (q.1 == n) = false := by
      apply beq_eq_false_iff_ne.mpr
      rw [beq_iff_eq.mp hq']
      exact h
    simp [if_neg (by simp [hqn] : ¬ (q.1 == n) = true)]
    rw [if_neg (beq_eq_false_iff_ne.mp hqn)]

theorem coordLookup_set_self {ds : Dataset} {n : String} {c : Coord} {vs : List ℚ}
    (h : coordLookup ds n = some c) :
    coordLookup (setCoordVals ds n vs) n = some { c with values := vs } := by
  unfold coordLookup setCoordVals at *
  rw [lookupTab_set_self, h]
  rfl

theorem coordLookup_set_ne {ds : Dataset} {n m : String} {vs : List ℚ} (h : m ≠ n) :
    coordLookup (setCoordVals ds n vs) m = coordLookup ds m := by
  unfold coordLookup setCoordVals
  exact lookupTab_set_ne _ _ _ _ h

theorem fix360_run_CERRA {project : String} {ds : Dataset} {lonc : Coord}
    (hp : occursIn "CERRA" project = true)
    (hlon : coordLookup ds "longitude" = some lonc) :
    fix_360_longitudes ds project =
      .ok (setCoordVals ds "longitude" (rewrapLonValues lonc.values)) := by
  have hname : lonNameFor project = "longitude" := by simp [lonNameFor, hp]
  simp only [fix_360_longitudes, hname, hlon, hp, if_true]

theorem fix360_run_notCERRA {project : String} {ds : Dataset} {lonc latc : Coord}
    (hp : occursIn "CERRA" project = false)
    (hlon : coordLookup ds "lon" = some lonc)
    (hlat : coordLookup ds "lat" = some latc) :
    fix_360_longitudes ds project =
      if latc.dims.length ≠ 2 then
        .ok (setCoordVals (setCoordVals ds "lon" (rewrapLonValues lonc.values)) "lon"
              (sortAsc (rewrapLonValues lonc.values)))
      else .ok (setCoordVals ds "lon" (rewrapLonValues lonc.values)) := by
  have hname : lonNameFor project = "lon" := by simp [lonNameFor, hp]
  have hlat1 : coordLookup (setCoordVals ds "lon" (rewrapLonValues lonc.values)) "lat"
      = some latc := by
    rw [coordLookup_set_ne (by decide)]
    exact hlat
  simp only [fix_360_longitudes, hname, hlon, hp, hlat1, Bool.false_eq_true, if_false]


/-- C2 counterexample: the claim quantifies only over `max > 180 and min ≥ 0`;
with the longitude value 541 the rewrap still fires and leaves 181 > 180, so
the promised `max ≤ 180` after normalization fails. -/
theorem c2_counterexample :
    180 < listMax [(0 : ℚ), 541] ∧ 0 ≤ listMin [(0 : ℚ), 541] ∧
    coordVals c2ds "lon" = some [0, 541] ∧
    fix_360_longitudes c2ds "ERA5" = .ok c2res ∧
    coordVals c2res "lon" = some [0, 181] ∧ ¬ listMax [(0 : ℚ), 181] ≤ 180 := by
  have hrw : rewrapLonValues [(0 : ℚ), 541] = [0, 181] := by
    unfold rewrapLonValues
    rw [if_pos (by decide)]
    norm_num [rewrapOne]
  have hs : sortAsc [(0 : ℚ), 181] = [0, 181] := by decide
  refine ⟨by decide, by decide, rfl, ?_, rfl, by decide⟩
  rw [fix360_run_notCERRA (by decide)
      (rfl : coordLookup c2ds "lon" = some ⟨["lon"], [0, 541]⟩)
      (rfl : coordLookup c2ds "lat" = some ⟨["lat"], [10]⟩), if_pos (by decide)]
  rw [show (Coord.mk ["lon"] [0, 541]).values = [(0 : ℚ), 541] from rfl, hrw, hs]
  rfl

/-- C2 (amended): when `max > 180` and `min ≥ 0` the Longitude Normalizer
rewraps elementwise (`v ↦ v - 360` for `v > 180`, identity otherwise); when
additionally every value is below 360 (the [0,360) convention the spec names)
every value after rewrapping lies in [-180, 180]; when `max ≤ 180` or
`min < 0` no value is rewrapped; and the longitude coordinate of any
successful `fix_360_longitudes` run is exactly the rewrapped list, possibly
re-sorted. -/
theorem c2_amended :
    (∀ vs : List ℚ, 180 < listMax vs → 0 ≤ listMin vs →
       rewrapLonValues vs = vs.map rewrapOne) ∧
    (∀ vs : List ℚ, listMax vs ≤ 180 ∨ listMin vs < 0 → rewrapLonValues vs = vs) ∧
    (∀ vs : List ℚ, 0 ≤ listMin vs → (∀ v ∈ vs, v < 360) →
       ∀ w ∈ rewrapLonValues vs, -180 ≤ w ∧ w ≤ 180) ∧
    (∀ (project : String) (ds : Dataset) (lonc : Coord) (ds' : Dataset),
       coordLookup ds (lonNameFor project) = some lonc →
       fix_360_longitudes ds project = .ok ds' →
       coordVals ds' (lonNameFor project) = some (rewrapLonValues lonc.values) ∨
       coordVals ds' (lonNameFor project) = some (sortAsc (rewrapLonValues lonc.values))) := by
  refine ⟨?_, ?_, ?_, ?_⟩
  · intro vs h1 h2
    unfold rewrapLonValues
    rw [if_pos ⟨h1, h2⟩]
  · intro vs h
    unfold rewrapLonValues
    rw [if_neg]
    rintro ⟨ha, hb⟩
    rcases h with h | h
    · exact absurd ha (not_lt.mpr h)
    · exact absurd hb (not_le.mpr h)
  · intro vs hmin hlt w hw
    unfold rewrapLonValues at hw
    by_cases hc : 180 < listMax vs ∧ 0 ≤ listMin vs
    · rw [if_pos hc] at hw
      obtain ⟨v, hv, rfl⟩ := List.mem_map.mp hw
      unfold rewrapOne
      by_cases h180 : v ≤ 180
      · rw [if_pos h180]
        exact ⟨le_trans (by norm_num) (le_trans hmin (listMin_le hv)), h180⟩
      · rw [if_neg h180]
        have hvgt : (180 : ℚ) < v := not_le.mp h180
        have hv360 : v < 360 := hlt v hv
        constructor
        · linarith
        · linarith
    · rw [if_neg hc] at hw
      have hmax : listMax vs ≤ 180 := by
        by_contra hmx
        exact hc ⟨not_le.mp hmx, hmin⟩
      exact ⟨le_trans (by norm_num) (le_trans hmin (listMin_le hw)),
        le_trans (le_listMax hw) hmax⟩
  · intro project ds lonc ds' hlon h
    cases hc : occursIn "CERRA" project with
    | true =>
      have hname : lonNameFor project = "longitude" := by simp [lonNameFor, hc]
      rw [hname] at hlon ⊢
      rw [fix360_run_CERRA hc hlon] at h
      injection h with h
      subst h
      left
      unfold coordVals
      rw [coordLookup_set_self hlon]
      rfl
    | false =>
      have hname : lonNameFor project = "lon" := by simp [lonNameFor, hc]
      rw [hname] at hlon ⊢
      cases hlat : coordLookup ds "lat" with
      | none =>
        exfalso
        have hlat1 : coordLookup (setCoordVals ds "lon" (rewrapLonValues lonc.values)) "lat"
            = none := by
          rw [coordLookup_set_ne (by decide)]
          exact hlat
        simp only [fix_360_longitudes, hname, hlon, hc, Bool.false_eq_true, if_false,
          hlat1] at h
        exact Except.noConfusion h
      | some latc =>
        rw [fix360_run_notCERRA hc hlon hlat] at h
        by_cases h2 : latc.dims.length ≠ 2
        · rw [if_pos h2] at h
          injection h with h
          subst h
          right
          unfold coordVals
          rw [coordLookup_set_self (coordLookup_set_self hlon)]
          rfl
        · rw [if_neg h2] at h
          injection h with h
          subst h
          left
          unfold coordVals
          rw [coordLookup_set_self hlon]
          rfl

/-- Witness for the amended C2 at concrete inputs, including concrete
scenario 3 of the spec through the full `fix_360_longitudes`. -/
theorem c2_amended_witness :
    rewrapLonValues [0, 90, 180, 270, 350] = [0, 90, 180, -90, -10] ∧
    rewrapLonValues [(5 : ℚ), 170] = [5, 170] ∧
    (-180 ≤ (-90 : ℚ) ∧ (-90 : ℚ) ≤ 180) ∧
    (coordVals c2wres "lon" = some (rewrapLonValues [0, 90, 180, 270, 350]) ∨
     coordVals c2wres "lon" = some (sortAsc (rewrapLonValues [0, 90, 180, 270, 350]))) := by
  have h1 : rewrapLonValues [0, 90, 180, 270, 350] = [0, 90, 180, -90, -10] := by
    rw [c2_amended.1 [0, 90, 180, 270, 350] (by decide) (by decide)]
    norm_num [rewrapOne]
  have hfix : fix_360_longitudes c2wds "ERA5" = .ok c2wres := by
    rw [fix360_run_notCERRA (by decide)
        (rfl : coordLookup c2wds "lon" = some ⟨["lon"], [0, 90, 180, 270, 350]⟩)
        (rfl : coordLookup c2wds "lat" = some ⟨["lat"], [10]⟩), if_pos (by decide)]
    rw [show (Coord.mk ["lon"] [0, 90, 180, 270, 350]).values
        = [(0 : ℚ), 90, 180, 270, 350] from rfl, h1]
    rw [show sortAsc [(0 : ℚ), 90, 180, -90, -10] = [-90, -10, 0, 90, 180] from by decide]
    rfl
  refine ⟨h1, c2_amended.2.1 [(5 : ℚ), 170] (Or.inl (by decide)), ?_, ?_⟩
  · constructor
    · apply (c2_amended.2.2.1 [0, 90, 180, 270, 350] (by decide) (by decide) (-90)
        (by rw [h1]; decide)).1
    · apply (c2_amended.2.2.1 [0, 90, 180, 270, 350] (by decide) (by decide) (-90)
        (by rw [h1]; decide)).2
  · exact c2_amended.2.2.2 "ERA5" c2wds ⟨["lon"], [0, 90, 180, 270, 350]⟩ c2wres rfl hfix

/-- C5 counterexample: the source keys the 1-D test on the latitude
coordinate, not the longitude.  `c5ds` has a one-dimensional longitude, a
non-exception provider, and a two-dimensional latitude: the rewrapped axis
[0, -10] is left unsorted, contradicting the claimed re-sort. -/
theorem c5_counterexample :
    occursIn "CERRA" "ERA5" = false ∧
    coordLookup c5ds "lon" = some ⟨["lon"], [0, 350]⟩ ∧
    ((⟨["lon"], [0, 350]⟩ : Coord).dims).length = 1 ∧
    fix_360_longitudes c5ds "ERA5" = .ok c5res ∧
    coordVals c5res "lon" = some [0, -10] ∧
    ¬ List.Sorted (fun a b : ℚ => a ≤ b) [(0 : ℚ), -10] := by
  have hrw : rewrapLonValues [(0 : ℚ), 350] = [0, -10] := by
    unfold rewrapLonValues
    rw [if_pos (by decide)]
    norm_num [rewrapOne]
  refine ⟨by decide, rfl, by decide, ?_, rfl, by decide⟩
  rw [fix360_run_notCERRA (by decide)
      (rfl : coordLookup c5ds "lon" = some ⟨["lon"], [0, 350]⟩)
      (rfl : coordLookup c5ds "lat" = some ⟨["y", "x"], [10, 11, 12, 13]⟩),
    if_neg (by decide)]
  rw [show (Coord.mk ["lon"] [0, 350]).values = [(0 : ℚ), 350] from rfl, hrw]
  rfl

/-- C5 (amended): after rewrapping, the Longitude Normalizer re-sorts the
longitude axis ascending exactly when the provider is not the CERRA exception
and the latitude coordinate (not the longitude) is not two-dimensional; with
a 2-D latitude or the CERRA provider the axis is left as rewrapped. -/
theorem c5_amended :
    (∀ (project : String) (ds : Dataset) (lonc latc : Coord) (ds' : Dataset),
       occursIn "CERRA" project = false →
       coordLookup ds "lon" = some lonc →
       coordLookup ds "lat" = some latc →
       latc.dims.length ≠ 2 →
       fix_360_longitudes ds project = .ok ds' →
       coordVals ds' "lon" = some (sortAsc (rewrapLonValues lonc.values)) ∧
       List.Sorted (fun a b : ℚ => a ≤ b) (sortAsc (rewrapLonValues lonc.values))) ∧
    (∀ (project : String) (ds : Dataset) (lonc latc : Coord) (ds' : Dataset),
       occursIn "CERRA" project = false →
       coordLookup ds "lon" = some lonc →
       coordLookup ds "lat" = some latc →
       latc.dims.length = 2 →
       fix_360_longitudes ds project = .ok ds' →
       coordVals ds' "lon" = some (rewrapLonValues lonc.values)) ∧
    (∀ (project : String) (ds : Dataset) (lonc : Coord) (ds' : Dataset),
       occursIn "CERRA" project = true →
       coordLookup ds "longitude" = some lonc →
       fix_360_longitudes ds project = .ok ds' →
       coordVals ds' "longitude" = some (rewrapLonValues lonc.values)) := by
  refine ⟨?_, ?_, ?_⟩
  · intro project ds lonc latc ds' hp hlon hlat h2 h
    rw [fix360_run_notCERRA hp hlon hlat, if_pos h2] at h
    injection h with h
    subst h
    constructor
    · unfold coordVals
      rw [coordLookup_set_self (coordLookup_set_self hlon)]
      rfl
    · exact List.sorted_insertionSort _ _
  · intro project ds lonc latc ds' hp hlon hlat h2 h
    rw [fix360_run_notCERRA hp hlon hlat, if_neg (by simp [h2])] at h
    injection h with h
    subst h
    unfold coordVals
    rw [coordLookup_set_self hlon]
    rfl
  · intro project ds lonc ds' hp hlon h
    rw [fix360_run_CERRA hp hlon] at h
    injection h with h
    subst h
    unfold coordVals
    rw [coordLookup_set_self hlon]
    rfl

/-- Witness for the amended C5: concrete scenario 3 of the spec, with a
one-dimensional latitude, sorts the rewrapped axis to [-90, -10, 0, 90, 180]. -/
theorem c5_amended_witness :
    coordVals c5wres "lon" = some (sortAsc (rewrapLonValues [0, 90, 180, 270, 350])) ∧
    sortAsc (rewrapLonValues [0, 90, 180, 270, 350]) = [-90, -10, 0, 90, 180] := by
  have h1 : rewrapLonValues [0, 90, 180, 270, 350] = [0, 90, 180, -90, -10] := by
    unfold rewrapLonValues
    rw [if_pos (by decide)]
    norm_num [rewrapOne]
  have hfix : fix_360_longitudes c5wds "ERA5" = .ok c5wres := by
    rw [fix360_run_notCERRA (by decide)
        (rfl : coordLookup c5wds "lon" = some ⟨["lon"], [0, 90, 180, 270, 350]⟩)
        (rfl : coordLookup c5wds "lat" = some ⟨["lat"], [10]⟩), if_pos (by decide)]
    rw [show (Coord.mk ["lon"] [0, 90, 180, 270, 350]).values
        = [(0 : ℚ), 90, 180, 270, 350] from rfl, h1]
    rw [show sortAsc [(0 : ℚ), 90, 180, -90, -10] = [-90, -10, 0, 90, 180] from by decide]
    rfl
  constructor
  · exact (c5_amended.1 "ERA5" c5wds ⟨["lon"], [0, 90, 180, 270, 350]⟩ ⟨["lat"], [10]⟩
      c5wres (by decide) rfl rfl (by decide) hfix).1
  · rw [h1]
    decide

theorem conv_target_lookup : ∀ p ∈ UNIT_CONVERTER,
    lookupTab UNIT_CONVERTER p.2.2.2 = none ∨
    lookupTab UNIT_CONVERTER p.2.2.2 = some (1, 0, p.2.2.2) := by decide

theorem convertStep_ok_idem {n : String} {v v' v'' : DataVar}
    (h1 : convertStep n v = .ok v') (h2 : convertStep n v' = .ok v'') : v'' = v' := by
  cases hu : v.unitsAttr with
  | none => simp [convertStep, hu] at h1
  | some u =>
    cases hv : lookupTab VALID_UNITS n with
    | none => simp [convertStep, hu, hv] at h1
    | some expected =>
      simp only [convertStep, hu, hv] at h1
      by_cases hue : u = expected
      · rw [if_pos hue] at h1
        injection h1 with h1
        subst h1
        simp only [convertStep, hu, hv, if_pos hue] at h2
        injection h2 with h2
        exact h2.symm
      · rw [if_neg hue] at h1
        cases hcv : lookupTab UNIT_CONVERTER u with
        | none => simp [hcv] at h1
        | some c =>
          simp only [hcv] at h1
          injection h1 with h1
          subst h1
          simp only [convertStep, hv] at h2
          by_cases hte : c.2.2 = expected
          · rw [if_pos hte] at h2
            injection h2 with h2
            exact h2.symm
          · rw [if_neg hte] at h2
            obtain ⟨p, hfp, hpc⟩ : ∃ p, List.find? (fun q => q.1 == u) UNIT_CONVERTER
                = some p ∧ p.2 = c := by
              unfold lookupTab at hcv
              obtain ⟨p, hp1, hp2⟩ := Option.map_eq_some'.mp hcv
              exact ⟨p, hp1, hp2⟩
            have hpm : p ∈ UNIT_CONVERTER := List.mem_of_find?_eq_some hfp
            have htl := conv_target_lookup p hpm
            rw [hpc] at htl
            cases hct : lookupTab UNIT_CONVERTER c.2.2 with
            | none => simp [hct] at h2
            | some c2 =>
              simp only [hct] at h2
              rcases htl with htl | htl
              · rw [hct] at htl; exact absurd htl (by simp)
              · rw [hct] at htl
                injection htl with htl
                subst htl
                injection h2 with h2
                subst h2
                simp

theorem convertStep_ok_not_bad {n : String} {v v' : DataVar}
    (h : convertStep n v = .ok v') : badVar n v = false := by
  cases hu : v.unitsAttr with
  | none => simp [convertStep, hu] at h
  | some u =>
    cases hv : lookupTab VALID_UNITS n with
    | none => simp [convertStep, hu, hv] at h
    | some expected =>
      simp only [convertStep, hu, hv] at h
      unfold badVar
      rw [hv, hu]
      by_cases hue : u = expected
      · simp [hue]
      · rw [if_neg hue] at h
        cases hcv : lookupTab UNIT_CONVERTER u with
        | none => simp [hcv] at h
        | some c => simp [hcv]

theorem convertStep_err_mapping {n : String} {v : DataVar} {e : CErr}
    (hu : v.unitsAttr.isSome = true) (h : convertStep n v = .error e) :
    e.isMappingErr = true := by
  obtain ⟨u, hsome⟩ := Option.isSome_iff_exists.mp hu
  cases hv : lookupTab VALID_UNITS n with
  | none =>
    simp only [convertStep, hsome, hv] at h
    injection h with h
    subst h
    rfl
  | some expected =>
    simp only [convertStep, hsome, hv] at h
    by_cases hue : u = expected
    · rw [if_pos hue] at h; exact absurd h (by simp)
    · rw [if_neg hue] at h
      cases hcv : lookupTab UNIT_CONVERTER u with
      | none =>
        simp only [hcv] at h
        injection h with h
        subst h
        rfl
      | some c => simp [hcv] at h

theorem convertStep_err_bad {n : String} {v : DataVar} {e : CErr}
    (h : convertStep n v = .error e) (hm : e.isMappingErr = true) : badVar n v = true := by
  cases hu : v.unitsAttr with
  | none =>
    simp only [convertStep, hu] at h
    injection h with h
    subst h
    exact absurd hm (by simp [CErr.isMappingErr])
  | some u =>
    cases hv : lookupTab VALID_UNITS n with
    | none => simp [badVar, hv]
    | some expected =>
      simp only [convertStep, hu, hv] at h
      by_cases hue : u = expected
      · rw [if_pos hue] at h; exact absurd h (by simp)
      · rw [if_neg hue] at h
        cases hcv : lookupTab UNIT_CONVERTER u with
        | none =>
          simp [badVar, hv, hu, hcv]
          exact hue
        | some c => simp [hcv] at h

theorem convertVarsGo_fail {l : List (String × DataVar)} {e : CErr}
    {l' : List (String × DataVar)} (h : convertVarsGo l = (some e, l')) :
    ∃ pre pre' n v rest, l = pre ++ (n, v) :: rest ∧ l' = pre' ++ (n, v) :: rest ∧
      convertVarsGo pre = (none, pre') ∧ convertStep n v = .error e := by
  induction l generalizing e l' with
  | nil => exact absurd h (by simp [convertVarsGo])
  | cons p t ih =>
    obtain ⟨n, v⟩ := p
    cases hs : convertStep n v with
    | error e' =>
      simp only [convertVarsGo, hs] at h
      obtain ⟨h1, h2⟩ := Prod.mk.injEq .. ▸ h
      injection h1 with h1
      refine ⟨[], [], n, v, t, by simp, ?_, rfl, ?_⟩
      · rw [← h2]
        simp
      · rw [hs, h1]
    | ok v' =>
      simp only [convertVarsGo, hs] at h
      have h1 : (convertVarsGo t).1 = some e := congrArg Prod.fst h
      have h2 : (n, v') :: (convertVarsGo t).2 = l' := congrArg Prod.snd h
      have hgo : convertVarsGo t = (some e, (convertVarsGo t).2) := by
        conv_lhs => rw [show convertVarsGo t = ((convertVarsGo t).1, (convertVarsGo t).2)
          from rfl]
        rw [h1]
      obtain ⟨pre, pre', m, w, rest, ha, hb, hc, hd⟩ := ih hgo
      refine ⟨(n, v) :: pre, (n, v') :: pre', m, w, rest, by rw [ha, List.cons_append], ?_, ?_, hd⟩
      · rw [← h2, hb, List.cons_append]
      · simp only [convertVarsGo, hs, hc]

theorem convertVarsGo_fails_of_bad :
    ∀ l : List (String × DataVar), (∃ p ∈ l, badVar p.1 p.2 = true) →
      (convertVarsGo l).1.isSome = true := by
  intro l
  induction l with
  | nil => rintro ⟨p, hp, _⟩; cases hp
  | cons q t ih =>
    rintro ⟨p, hp, hbad⟩
    obtain ⟨n, v⟩ := q
    cases hs : convertStep n v with
    | error e => simp [convertVarsGo, hs]
    | ok v' =>
      simp only [convertVarsGo, hs]
      rcases List.mem_cons.mp hp with rfl | hpt
      · rw [convertStep_ok_not_bad hs] at hbad
        cases hbad
      · exact ih ⟨p, hpt, hbad⟩

theorem convertVarsGo_mapping_of_wf :
    ∀ l : List (String × DataVar), (∀ p ∈ l, p.2.unitsAttr.isSome = true) →
      ∀ e, (convertVarsGo l).1 = some e → e.isMappingErr = true := by
  intro l
  induction l with
  | nil => intro _ e h; exact absurd h (by simp [convertVarsGo])
  | cons q t ih =>
    intro hwf e h
    obtain ⟨n, v⟩ := q
    cases hs : convertStep n v with
    | error e' =>
      simp only [convertVarsGo, hs] at h
      injection h with h
      subst h
      exact convertStep_err_mapping (hwf (n, v) (List.mem_cons_self _ _)) hs
    | ok v' =>
      simp only [convertVarsGo, hs] at h
      exact ih (fun p hp => hwf p (List.mem_cons_of_mem _ hp)) e h

theorem convertVarsGo_idem {l l' l'' : List (String × DataVar)}
    (h1 : convertVarsGo l = (none, l')) (h2 : convertVarsGo l' = (none, l'')) :
    l'' = l' := by
  induction l generalizing l' l'' with
  | nil =>
    simp only [convertVarsGo] at h1
    obtain ⟨-, hb⟩ := Prod.mk.injEq .. ▸ h1
    subst hb
    simp only [convertVarsGo] at h2
    obtain ⟨-, hb⟩ := Prod.mk.injEq .. ▸ h2
    exact hb.symm
  | cons q t ih =>
    obtain ⟨n, v⟩ := q
    cases hs : convertStep n v with
    | error e =>
      simp only [convertVarsGo, hs] at h1
      obtain ⟨ha, -⟩ := Prod.mk.injEq .. ▸ h1
      exact absurd ha (by simp)
    | ok v' =>
      simp only [convertVarsGo, hs] at h1
      obtain ⟨ha, hb⟩ := Prod.mk.injEq .. ▸ h1
      subst hb
      cases hs2 : convertStep n v' with
      | error e =>
        simp only [convertVarsGo, hs2] at h2
        obtain ⟨hc, -⟩ := Prod.mk.injEq .. ▸ h2
        exact absurd hc (by simp)
      | ok v'' =>
        simp only [convertVarsGo, hs2] at h2
        obtain ⟨hc, hd⟩ := Prod.mk.injEq .. ▸ h2
        have hfix : v'' = v' := convertStep_ok_idem hs hs2
        subst hfix
        have hgo1 : convertVarsGo t = (none, (convertVarsGo t).2) := by
          conv_lhs => rw [show convertVarsGo t = ((convertVarsGo t).1, (convertVarsGo t).2)
            from rfl]
          rw [ha]
        have hgo2 : convertVarsGo (convertVarsGo t).2
            = (none, (convertVarsGo (convertVarsGo t).2).2) := by
          conv_lhs => rw [show convertVarsGo (convertVarsGo t).2
            = ((convertVarsGo (convertVarsGo t).2).1, (convertVarsGo (convertVarsGo t).2).2)
            from rfl]
          rw [hc]
        rw [← hd]
        rw [ih hgo1 hgo2]

theorem convertVarsGo_fails_of_noUnits :
    ∀ l : List (String × DataVar), (∃ p ∈ l, p.2.unitsAttr = none) →
      (convertVarsGo l).1.isSome = true := by
  intro l
  induction l with
  | nil => rintro ⟨p, hp, -⟩; cases hp
  | cons q t ih =>
    rintro ⟨p, hp, hnone⟩
    obtain ⟨n, v⟩ := q
    cases hs : convertStep n v with
    | error e => simp [convertVarsGo, hs]
    | ok v' =>
      simp only [convertVarsGo, hs]
      rcases List.mem_cons.mp hp with rfl | hpt
      · exfalso
        have hnone' : v.unitsAttr = none := hnone
        simp [convertStep, hnone'] at hs
      · exact ih ⟨p, hpt, hnone⟩

/-- C3 counterexample: on `c3ds` the converter fails with a missing-mapping
error on the second variable, but the first variable has already been
converted in place, so the dataset is not left unmodified. -/
theorem c3_counterexample :
    (convertUnitsRun c3ds).1 = some (CErr.noExpectedUnit "bogus") ∧
    (convertUnitsRun c3ds).2 ≠ c3ds := by
  constructor
  · rfl
  · decide

/-- C3 (amended): under the data-model invariant that every variable carries a
`units` attribute, the Unit Converter fails with a missing-mapping error iff
some variable's name is absent from `VALID_UNITS` or its recorded unit differs
from the expected one and is absent from `UNIT_CONVERTER`; and on failure the
dataset state consists of the successfully converted prefix followed by the
failing variable and the untouched remainder (no rollback). -/
theorem c3_amended : ∀ ds : Dataset, unitsWellFormed ds →
    (((∃ p ∈ ds.data_vars, badVar p.1 p.2 = true) ↔
       isMappingFail (convertUnitsRun ds).1 = true) ∧
     (∀ (e : CErr) (ds' : Dataset), convertUnitsRun ds = (some e, ds') →
       ∃ pre pre' n v rest, ds.data_vars = pre ++ (n, v) :: rest ∧
         ds'.data_vars = pre' ++ (n, v) :: rest ∧
         convertVarsGo pre = (none, pre') ∧ convertStep n v = .error e)) := by
  intro ds hwf
  constructor
  · constructor
    · intro hex
      have hsome := convertVarsGo_fails_of_bad ds.data_vars hex
      obtain ⟨e, he⟩ := Option.isSome_iff_exists.mp hsome
      have hmap := convertVarsGo_mapping_of_wf ds.data_vars hwf e he
      show isMappingFail (convertVarsGo ds.data_vars).1 = true
      rw [he]
      exact hmap
    · intro hmf
      have hmf' : isMappingFail (convertVarsGo ds.data_vars).1 = true := hmf
      cases he : (convertVarsGo ds.data_vars).1 with
      | none => rw [he] at hmf'; exact absurd hmf' (by simp [isMappingFail])
      | some e =>
        have hgo : convertVarsGo ds.data_vars = (some e, (convertVarsGo ds.data_vars).2) := by
          conv_lhs => rw [show convertVarsGo ds.data_vars
            = ((convertVarsGo ds.data_vars).1, (convertVarsGo ds.data_vars).2) from rfl]
          rw [he]
        obtain ⟨pre, pre', n, v, rest, ha, hb, hc, hd⟩ := convertVarsGo_fail hgo
        have hmap : e.isMappingErr = true := by rw [he] at hmf'; exact hmf'
        refine ⟨(n, v), ?_, convertStep_err_bad hd hmap⟩
        rw [ha]
        exact List.mem_append_right _ (List.mem_cons_self _ _)
  · intro e ds' hrun
    have h1 : (convertVarsGo ds.data_vars).1 = some e := congrArg Prod.fst hrun
    have h2 : ds'.data_vars = (convertVarsGo ds.data_vars).2 := by
      have hsnd : (convertUnitsRun ds).2 = ds' := by rw [hrun]
      rw [← hsnd]
      rfl
    have hgo : convertVarsGo ds.data_vars = (some e, (convertVarsGo ds.data_vars).2) := by
      conv_lhs => rw [show convertVarsGo ds.data_vars
        = ((convertVarsGo ds.data_vars).1, (convertVarsGo ds.data_vars).2) from rfl]
      rw [h1]
    obtain ⟨pre, pre', n, v, rest, ha, hb, hc, hd⟩ := convertVarsGo_fail hgo
    exact ⟨pre, pre', n, v, rest, ha, by rw [h2, hb], hc, hd⟩

/-- Witness for the amended C3: a single variable with the unknown unit
"furlongs-per-fortnight" makes the converter fail with a missing-mapping
error (spec scenario: unknown unit on any variable). -/
theorem c3_amended_witness :
    badVar "tas" ⟨["time"], some "furlongs-per-fortnight", [1]⟩ = true ∧
    isMappingFail (convertUnitsRun c3wds).1 = true := by
  constructor
  · decide
  · exact (c3_amended c3wds (by unfold unitsWellFormed; decide)).1.mp
      ⟨("tas", ⟨["time"], some "furlongs-per-fortnight", [1]⟩), by decide, by decide⟩

/-- C6 counterexample: `W m**-2` converts to target unit `W m-2`, which is
itself missing from `UNIT_CONVERTER`, so the first pass succeeds and the
second pass fails instead of being a no-op. -/
theorem c6_counterexample :
    convert_units c6cexds = .ok c6cexds1 ∧
    convert_units c6cexds1 = .error (CErr.noConversion "W m-2") := by
  constructor
  · have hv : lookupTab VALID_UNITS "tas" = some "Celsius" := rfl
    have hc : lookupTab UNIT_CONVERTER "W m**-2" = some (1, 0, "W m-2") := rfl
    have hstep : convertStep "tas" ⟨["time"], some "W m**-2", [1]⟩
        = .ok ⟨["time"], some "W m-2", [1]⟩ := by
      simp only [convertStep, hv, hc]
      rw [if_neg (by decide)]
      norm_num
    simp only [convert_units, convertUnitsRun, c6cexds, convertVarsGo, hstep]
    rfl
  · rfl

/-- C6 (amended): whenever `convert_units` succeeds and also succeeds on its
own output, the second application returns the first result unchanged
(idempotence restricted to inputs on which the second pass does not fail). -/
theorem c6_amended : ∀ ds ds1 ds2 : Dataset,
    convert_units ds = .ok ds1 → convert_units ds1 = .ok ds2 → ds2 = ds1 := by
  intro ds ds1 ds2 h1 h2
  cases he1 : (convertVarsGo ds.data_vars).1 with
  | some e =>
    simp only [convert_units, convertUnitsRun, he1] at h1
    exact Except.noConfusion h1
  | none =>
    simp only [convert_units, convertUnitsRun, he1] at h1
    injection h1 with h1
    cases he2 : (convertVarsGo ds1.data_vars).1 with
    | some e =>
      simp only [convert_units, convertUnitsRun, he2] at h2
      exact Except.noConfusion h2
    | none =>
      simp only [convert_units, convertUnitsRun, he2] at h2
      injection h2 with h2
      have hvars1 : ds1.data_vars = (convertVarsGo ds.data_vars).2 := by rw [← h1]
      have hgo1 : convertVarsGo ds.data_vars = (none, (convertVarsGo ds.data_vars).2) := by
        conv_lhs => rw [show convertVarsGo ds.data_vars
          = ((convertVarsGo ds.data_vars).1, (convertVarsGo ds.data_vars).2) from rfl]
        rw [he1]
      have hgo2 : convertVarsGo ds1.data_vars = (none, (convertVarsGo ds1.data_vars).2) := by
        conv_lhs => rw [show convertVarsGo ds1.data_vars
          = ((convertVarsGo ds1.data_vars).1, (convertVarsGo ds1.data_vars).2) from rfl]
        rw [he2]
      rw [hvars1] at hgo2
      have hfix := convertVarsGo_idem hgo1 hgo2
      rw [← h2, hvars1, hfix, ← hvars1]

/-- Witness for the amended C6: converting a 300 K temperature succeeds, a
second pass succeeds and returns the same dataset. -/
theorem c6_amended_witness :
    convert_units c6wds = .ok c6wds1 ∧ convert_units c6wds1 = .ok c6wds1 ∧
    c6wds1 = c6wds1 := by
  have hv : lookupTab VALID_UNITS "tas" = some "Celsius" := rfl
  have hc : lookupTab UNIT_CONVERTER "K" = some (1, -27315/100, "Celsius") := rfl
  have hstep : convertStep "tas" ⟨["time"], some "K", [300]⟩
      = .ok ⟨["time"], some "Celsius", [537/20]⟩ := by
    simp only [convertStep, hv, hc]
    rw [if_neg (by decide)]
    norm_num
  have hfix1 : convert_units c6wds = .ok c6wds1 := by
    simp only [convert_units, convertUnitsRun, c6wds, convertVarsGo, hstep]
    rfl
  exact ⟨hfix1, rfl, c6_amended c6wds c6wds1 c6wds1 hfix1 rfl⟩

/-- C10: a data variable without a `units` attribute makes `convert_units`
fail rather than being skipped; when such a variable is first in the dataset
the failure is precisely the attribute-lookup error, with the dataset state
unchanged. -/
theorem c10_missing_units_attr :
    (∀ ds : Dataset, (∃ p ∈ ds.data_vars, p.2.unitsAttr = none) →
       (convertUnitsRun ds).1.isSome = true) ∧
    (∀ (ds : Dataset) (n : String) (v : DataVar) (rest : List (String × DataVar)),
       ds.data_vars = (n, v) :: rest → v.unitsAttr = none →
       convertUnitsRun ds = (some CErr.unitsAttrMissing, ds)) := by
  constructor
  · intro ds hex
    exact convertVarsGo_fails_of_noUnits ds.data_vars hex
  · intro ds n v rest hvars hnone
    have hstep : convertStep n v = .error .unitsAttrMissing := by
      simp [convertStep, hnone]
    unfold convertUnitsRun
    rw [hvars]
    simp only [convertVarsGo, hstep]
    rw [← hvars]

/-- Witness for C10: the variable `tas` with values needing no conversion but
no `units` attribute still makes the converter fail with the attribute error. -/
theorem c10_missing_units_attr_witness :
    (convertUnitsRun c10ds).1.isSome = true ∧
    convertUnitsRun c10ds = (some CErr.unitsAttrMissing, c10ds) :=
  ⟨c10_missing_units_attr.1 c10ds ⟨("tas", ⟨["time"], none, [20]⟩), by decide, rfl⟩,
   c10_missing_units_attr.2 c10ds "tas" ⟨["time"], none, [20]⟩ [] rfl rfl⟩

/-- C8: a canonical name absent from the variable map resolves, without
raising, to the canonical name itself, and the Variable Selector then behaves
exactly as it does with an empty map. -/
theorem c8_fallback : ∀ (vmap : List (String × String)) (varName : String),
    lookupTab vmap varName = none →
    (resolveVarName vmap varName = varName ∧
     ∀ ds : Dataset, rename_and_delete_variables ds varName vmap
       = rename_and_delete_variables ds varName []) := by
  intro vmap varName h
  have hres : resolveVarName vmap varName = varName := by
    unfold resolveVarName
    rw [h]
  refine ⟨hres, fun ds => ?_⟩
  unfold rename_and_delete_variables
  rw [hres, show resolveVarName [] varName = varName from rfl]

/-- Witness for C8: the map sending pr to precip has no entry for `tas`. -/
theorem c8_fallback_witness :
    lookupTab [("pr", "precip")] "tas" = none ∧
    resolveVarName [("pr", "precip")] "tas" = "tas" ∧
    rename_and_delete_variables c8ds "tas" [("pr", "precip")]
      = rename_and_delete_variables c8ds "tas" [] :=
  ⟨rfl, (c8_fallback [("pr", "precip")] "tas" rfl).1,
   (c8_fallback [("pr", "precip")] "tas" rfl).2 c8ds⟩

theorem lookupTab_append_last {α : Type} (l : List (String × α)) (k : String) (x : α)
    (h : ∀ p ∈ l, p.1 ≠ k) : lookupTab (l ++ [(k, x)]) k = some x := by
  induction l with
  | nil => simp [lookupTab, List.find?_cons]
  | cons p t ih =>
    have hp : (p.1 == k) = false :=
      beq_eq_false_iff_ne.mpr (h p (List.mem_cons_self _ _))
    simp only [List.cons_append, lookupTab, List.find?_cons, hp]
    exact ih (fun q hq => h q (List.mem_cons_of_mem _ hq))

theorem dropExtraCoords_data_vars (d : Dataset) :
    (dropExtraCoords d).data_vars = d.data_vars := by
  unfold dropExtraCoords
  split <;> rfl

theorem expandTimeDim_coords (d : Dataset) : (expandTimeDim d).coords = d.coords := by
  unfold expandTimeDim
  split <;> rfl

theorem expandTimeDim_dataVarNames (d : Dataset) :
    (expandTimeDim d).dataVarNames = d.dataVarNames := by
  unfold expandTimeDim
  split
  · rfl
  · simp [Dataset.dataVarNames, List.map_map]

theorem filter_height_shape (L : List (String × Coord)) (hv : Coord)
    (f : String × Coord → Bool) (hf : f ("height", hv) = true) :
    (L ++ [("height", hv)]).filter f = L.filter f ++ [("height", hv)] := by
  rw [List.filter_append]
  congr 1
  simp [List.filter, hf]

theorem not_height_of_mem_bneFilter {L : List (String × Coord)} {p : String × Coord}
    (hp : p ∈ L.filter (fun r => !(r.1 == "height"))) : p.1 ≠ "height" := by
  have hb := (List.mem_filter.mp hp).2
  intro hcontra
  rw [hcontra] at hb
  simp at hb

/-- C4: whenever the resolved source variable is among the data variables, the
Variable Selector succeeds and returns a dataset whose only data variable is
the canonical name, carrying the scalar coordinate `height = 2.0`, with every
remaining coordinate inside the canonical set and a `time` dimension present. -/
theorem c4_variable_selector :
    ∀ (ds : Dataset) (varName : String) (vmap : List (String × String)),
      ds.dataVarNames.contains (resolveVarName vmap varName) = true →
      (rename_and_delete_variables ds varName vmap).isOk = true ∧
      (∀ ds', rename_and_delete_variables ds varName vmap = .ok ds' →
        ds'.dataVarNames = [varName] ∧
        coordLookup ds' "height" = some ⟨[], [2]⟩ ∧
        (∀ c ∈ ds'.coordNames, c ∈ mainCoords) ∧
        ds'.dimNames.contains "time" = true) := by
  intro ds varName vmap hsrc
  have hall : ([(resolveVarName vmap varName, varName)]).all
      (fun p => ds.dataVarNames.contains p.1 || ds.coordNames.contains p.1) = true := by
    simp only [List.all_cons, List.all_nil, Bool.and_true, hsrc, Bool.true_or]
  have hstep : ∃ dsR q, renameVarsDs [(resolveVarName vmap varName, varName)] ds = .ok dsR ∧
      dsR.data_vars.find? (fun r => r.1 == varName) = some q ∧ q.1 = varName := by
    have hren : renameVarsDs [(resolveVarName vmap varName, varName)] ds =
        .ok { data_vars := ds.data_vars.map
                (fun r => (applyRen [(resolveVarName vmap varName, varName)] r.1, r.2)),
              coords := ds.coords.map
                (fun r => (applyRen [(resolveVarName vmap varName, varName)] r.1, r.2)) } := by
      unfold renameVarsDs
      rw [if_pos hall]
    obtain ⟨p, hp, hp1⟩ : ∃ p ∈ ds.data_vars, p.1 = resolveVarName vmap varName :=
      List.mem_map.mp (contains_iff_mem.mp hsrc)
    have hpmap : applyRen [(resolveVarName vmap varName, varName)] p.1 = varName := by
      rw [hp1]
      simp [applyRen, List.find?_cons]
    have hfindsome : ((ds.data_vars.map
        (fun r => (applyRen [(resolveVarName vmap varName, varName)] r.1, r.2))).find?
          (fun r => r.1 == varName)).isSome = true := by
      rw [List.find?_isSome]
      exact ⟨(varName, p.2), List.mem_map.mpr ⟨p, hp, by rw [hpmap]⟩, by simp⟩
    obtain ⟨q, hq⟩ := Option.isSome_iff_exists.mp hfindsome
    have hq1 : q.1 = varName :=
      beq_iff_eq.mp (@List.find?_some _ (fun r => r.1 == varName) q _ hq)
    exact ⟨_, q, hren, hq, hq1⟩
  obtain ⟨dsR, q, hrenE, hqE, hq1⟩ := hstep
  have hsel : selectVar (assignHeightCoord dsR) varName
      = .ok { data_vars := [q],
              coords := (assignHeightCoord dsR).coords.filter
                (fun c => c.2.dims.all (fun d => q.2.dims.contains d)) } := by
    unfold selectVar
    rw [show (assignHeightCoord dsR).data_vars.find? (fun r => r.1 == varName) = some q
      from hqE]
  have hfin : rename_and_delete_variables ds varName vmap
      = .ok (expandTimeDim (dropExtraCoords
          { data_vars := [q],
            coords := (assignHeightCoord dsR).coords.filter
              (fun c => c.2.dims.all (fun d => q.2.dims.contains d)) })) := by
    simp only [rename_and_delete_variables, hrenE, hsel]
  constructor
  · rw [hfin]
    rfl
  · intro ds' h
    rw [hfin] at h
    injection h with h
    subst h
    refine ⟨?_, ?_, ?_, ?_⟩
    · rw [expandTimeDim_dataVarNames]
      unfold Dataset.dataVarNames
      rw [dropExtraCoords_data_vars]
      simp [hq1]
    · unfold coordLookup
      rw [expandTimeDim_coords]
      unfold dropExtraCoords
      split
      · show lookupTab
          (((dsR.coords.filter (fun r : String × Coord => !(r.1 == "height")))
              ++ [("height", (⟨[], [2]⟩ : Coord))]).filter
            (fun c : String × Coord => c.2.dims.all (fun d => q.2.dims.contains d))) "height"
          = some (⟨[], [2]⟩ : Coord)
        rw [filter_height_shape _ _ _ rfl]
        apply lookupTab_append_last
        intro pN hpN
        exact not_height_of_mem_bneFilter (List.mem_filter.mp hpN).1
      · show lookupTab
          ((((dsR.coords.filter (fun r : String × Coord => !(r.1 == "height")))
              ++ [("height", (⟨[], [2]⟩ : Coord))]).filter
            (fun c : String × Coord => c.2.dims.all (fun d => q.2.dims.contains d))).filter
              (fun r : String × Coord => mainCoords.contains r.1)) "height"
          = some (⟨[], [2]⟩ : Coord)
        rw [filter_height_shape _ _ _ rfl, filter_height_shape _ _ _ (by decide)]
        apply lookupTab_append_last
        intro pN hpN
        exact not_height_of_mem_bneFilter (List.mem_filter.mp (List.mem_filter.mp hpN).1).1
    · intro c hc
      unfold Dataset.coordNames at hc
      rw [expandTimeDim_coords] at hc
      unfold dropExtraCoords at hc
      split at hc
      · next hperm =>
        exact hperm.mem_iff.mp hc
      · obtain ⟨pc, hpc, rfl⟩ := List.mem_map.mp hc
        exact contains_iff_mem.mp (List.mem_filter.mp hpc).2
    · unfold expandTimeDim
      split
      · next hts => exact hts
      · apply contains_iff_mem.mpr
        unfold Dataset.dimNames
        apply List.mem_append_left
        rw [show (dropExtraCoords
            { data_vars := [q],
              coords := (assignHeightCoord dsR).coords.filter
                (fun c => c.2.dims.all (fun d => q.2.dims.contains d)) }).data_vars = [q]
          from dropExtraCoords_data_vars _]
        simp

/-- Witness for C4: concrete scenario 4 of the spec, the map sending tas to t2m, with
dataset `c4ds`. -/
theorem c4_variable_selector_witness :
    c4ds.dataVarNames.contains (resolveVarName [("tas", "t2m")] "tas") = true ∧
    rename_and_delete_variables c4ds "tas" [("tas", "t2m")] = .ok c4res ∧
    (c4res.dataVarNames = ["tas"] ∧
     coordLookup c4res "height" = some ⟨[], [2]⟩ ∧
     (∀ c ∈ c4res.coordNames, c ∈ mainCoords) ∧
     c4res.dimNames.contains "time" = true) := by
  have hfix : rename_and_delete_variables c4ds "tas" [("tas", "t2m")] = .ok c4res := rfl
  exact ⟨by decide, hfix,
    (c4_variable_selector c4ds "tas" [("tas", "t2m")] (by decide)).2 c4res hfix⟩
